import Mathlib

/-!
Verification of the test-discovery-and-execution harness in `run-tests.py`.

Python strings are embedded as `List Char` (immutable character sequences);
the filesystem seen by the scanner is embedded as an explicit tree of
entries, and each per-target subprocess run is abstracted by the attributes
recorded on the file node (conversion failure, operator interrupt during the
blocking wait, exit status).  Exceptions (`raise`, `sys.exit`) are embedded
as non-normal terminators that abort the enclosing loops, matching the
absence of `try`/`except` in the scanned code.
-/

/-- Python string, embedded as its character sequence. -/
abbrev PyStr := List Char

/-- Characters stripped by Python `str.strip()` and matched by the regex
class `\s` (space, tab, newline, carriage return, vertical tab, form feed). -/
def isPySpace (c : Char) : Bool :=
  c = ' ' || c = '\t' || c = '\n' || c = '\r' || c = '\x0b' || c = '\x0c'

/-- Python `line.strip()`: drop whitespace from both ends. -/
def pyStrip (l : PyStr) : PyStr :=
  ((l.dropWhile isPySpace).reverse.dropWhile isPySpace).reverse

/-- The extension part of Python `os.path.splitext(name)[1]` applied to a
basename: the suffix starting at the last dot, except that a dot inside the
leading run of dots (as in `.bashrc`) does not begin an extension. -/
def splitextExt (name : PyStr) : PyStr :=
  let suf := name.reverse.takeWhile (fun c => c ≠ '.')
  if suf.length = name.length then []
  else
    let base := name.take (name.length - suf.length - 1)
    if base.all (fun c => c = '.') then [] else '.' :: suf.reverse

/-- Python `os.path.join(root, filename)` for a relative filename. -/
def pathJoin (root name : PyStr) : PyStr := root ++ '/' :: name

/-- Canonicalization of one ignore-list entry (`run-tests.py` lines 51-54):
prepend `results/` when absent, then append `.ipynb` when absent. -/
def canonEntry (line : PyStr) : PyStr :=
  let l1 := if "results/".toList.isPrefixOf line then line
            else "results/".toList ++ line
  if ".ipynb".toList.isSuffixOf l1 then l1 else l1 ++ ".ipynb".toList

/-- Lines 48-54 of `run-tests.py` for a single raw line of `.slow-books`:
`none` when the stripped line is blank or a `#` comment, otherwise the
canonicalized entry. -/
def canonLine? (l : PyStr) : Option PyStr :=
  let s := pyStrip l
  if s = [] then none
  else if s.take 1 = ['#'] then none
  else some (canonEntry s)

/-- The loop of lines 47-57: canonicalize each kept line, `raise` at the
first canonical entry that is not an existing file (the error carries that
entry), otherwise accumulate the ignore list in order. -/
def loadIgnoreAux (isFile : PyStr → Bool) : List PyStr → Except PyStr (List PyStr)
  | [] => .ok []
  | l :: rest =>
      match canonLine? l with
      | none => loadIgnoreAux isFile rest
      | some c =>
          if isFile c then (loadIgnoreAux isFile rest).map (fun t => c :: t)
          else .error c

/-- Lines 44-57 of `run_notebook_and_scripts`: the ignore list is built only
when `skip_slow_books` is set and `.slow-books` exists (`slowBooks` is
`some` of its raw lines exactly when the file exists); otherwise it stays
empty.  `isFile` embeds `os.path.isfile`. -/
def loadIgnoreList (skip : Bool) (slowBooks : Option (List PyStr))
    (isFile : PyStr → Bool) : Except PyStr (List PyStr) :=
  if skip then
    match slowBooks with
    | none => .ok []
    | some lines => loadIgnoreAux isFile lines
  else .ok []

/-- Per-target behaviour of the abstracted subprocess world: whether the
notebook-to-script conversion raises, whether an operator interrupt
(`KeyboardInterrupt`) arrives during the blocking `communicate()` wait, and
whether the child exits with status 0. -/
structure FileAttr where
  convFail : Bool
  interrupt : Bool
  retOk : Bool
deriving DecidableEq, Repr

/-- A directory entry as listed by `os.listdir`: a file with its behaviour,
or a subdirectory with its own listing. -/
inductive FSEntry where
  | file : PyStr → FileAttr → FSEntry
  | dir : PyStr → List FSEntry → FSEntry

/-- The basename of an entry. -/
def FSEntry.name : FSEntry → PyStr
  | .file n _ => n
  | .dir n _ => n

/-- Observable per-target events of a run, in order: the skip message for an
ignored path, the spawn of a child process, the `p.terminate()` issued on an
interrupt, and the boolean outcome a test function returns for a target. -/
inductive Event where
  | skip : PyStr → Event
  | spawn : PyStr → Event
  | sigterm : PyStr → Event
  | outcome : PyStr → Bool → Event
deriving DecidableEq, Repr

/-- How a piece of the harness terminates: a normal return carrying the
running boolean, an uncaught conversion exception (carrying the offending
path), an uncaught configuration exception from the ignore-list loader, or
`sys.exit` with a code. -/
inductive ScanTerm where
  | normal : Bool → ScanTerm
  | convError : PyStr → ScanTerm
  | configError : PyStr → ScanTerm
  | sysExit : Nat → ScanTerm
deriving DecidableEq, Repr

/-- Result of one `test_notebook`/`test_script` call: a returned boolean or
an abnormal terminator escaping the call. -/
inductive TestRes where
  | ret : Bool → TestRes
  | exn : ScanTerm → TestRes
deriving DecidableEq, Repr

/-- `test_notebook` (lines 105-155): conversion happens first and is not
guarded, so a conversion failure raises before any child is spawned; a
`KeyboardInterrupt` during `communicate()` terminates the child and calls
`sys.exit(1)`; otherwise the boolean outcome reflects the exit status.
`attr = none` embeds calling it on a directory path, where
`nbconvert.from_filename` raises while reading the source document. -/
def test_notebook (path : PyStr) (attr : Option FileAttr) : List Event × TestRes :=
  match attr with
  | none => ([], .exn (.convError path))
  | some a =>
      if a.convFail then ([], .exn (.convError path))
      else if a.interrupt then ([.spawn path, .sigterm path], .exn (.sysExit 1))
      else ([.spawn path, .outcome path a.retOk], .ret a.retOk)

/-- `test_script` (lines 158-196): no conversion step; a
`KeyboardInterrupt` during `communicate()` terminates the child and calls
`sys.exit(1)`; otherwise the boolean outcome reflects the exit status.
`attr = none` embeds calling it on a directory path: the interpreter cannot
execute the directory and exits non-zero. -/
def test_script (path : PyStr) (attr : Option FileAttr) : List Event × TestRes :=
  match attr with
  | none => ([.spawn path, .outcome path false], .ret false)
  | some a =>
      if a.interrupt then ([.spawn path, .sigterm path], .exn (.sysExit 1))
      else ([.spawn path, .outcome path a.retOk], .ret a.retOk)

/-- `ok &= test_...(path)` (lines 93/99): fold the returned boolean into the
running accumulator; an abnormal terminator aborts the loop instead. -/
def andTest (ok : Bool) (r : List Event × TestRes) : List Event × ScanTerm :=
  match r with
  | (tr, .ret b) => (tr, .normal (ok && b))
  | (tr, .exn t) => (tr, t)

/-- The extension dispatch of lines 89-99: notebooks by `.ipynb` extension,
scripts by `.py` extension, anything else untouched.  The hardcoded
`debug = False` branch of the source is embedded as always testing. -/
def extDispatch (path name : PyStr) (attr : Option FileAttr) (ok : Bool) :
    List Event × ScanTerm :=
  if splitextExt name = ".ipynb".toList then andTest ok (test_notebook path attr)
  else if splitextExt name = ".py".toList then andTest ok (test_script path attr)
  else ([], .normal ok)

/-- Sequencing of two loop fragments: when the first returns normally the
second runs on its accumulator and the event streams concatenate; an
abnormal terminator of the first aborts the rest. -/
def seqScan (r : List Event × ScanTerm) (k : Bool → List Event × ScanTerm) :
    List Event × ScanTerm :=
  match r with
  | (tr, .normal ok) => ((tr ++ (k ok).1 : List Event), (k ok).2)
  | (tr, t) => (tr, t)

mutual
/-- One iteration of the `for filename in os.listdir(root)` loop of
`scan_for_nb_and_scripts` (lines 75-99): the ignore check first (`continue`
with a skip message), then for directories under the recursive flag the
hidden-name check (`continue`) or the recursive call — which passes only
`(path, recursive, executable)`, so the callee's `ignore_list` is its empty
default — and then, still in the same iteration, the extension dispatch. -/
def scanEntry (recursive : Bool) (ignore : List PyStr) (root : PyStr)
    (ok : Bool) : FSEntry → List Event × ScanTerm
  | .file name attr =>
      let path := pathJoin root name
      if path ∈ ignore then ([.skip path], .normal ok)
      else extDispatch path name (some attr) ok
  | .dir name children =>
      let path := pathJoin root name
      if path ∈ ignore then ([.skip path], .normal ok)
      else if recursive then
        if name.take 1 = ['.'] then ([], .normal ok)
        else
          seqScan (scanLoop recursive [] path true children)
            (fun sub => extDispatch path name none (ok && sub))
      else extDispatch path name none ok

/-- The whole listing loop of `scan_for_nb_and_scripts` with the running
accumulator `ok`, aborted by any uncaught exception or `sys.exit`. -/
def scanLoop (recursive : Bool) (ignore : List PyStr) (root : PyStr)
    (ok : Bool) : List FSEntry → List Event × ScanTerm
  | [] => ([], .normal ok)
  | e :: rest =>
      seqScan (scanEntry recursive ignore root ok e)
        (fun ok2 => scanLoop recursive ignore root ok2 rest)
end

/-- `scan_for_nb_and_scripts(root, recursive, executable, ignore_list)`
(lines 67-102) over the listing `fs` of `root`: the accumulator starts at
`True` and the final value is returned (line 102).  The `executable`
argument only names the interpreter and is absorbed into the per-file
behaviour. -/
def scan_for_nb_and_scripts (fs : List FSEntry) (root : PyStr)
    (recursive : Bool) (ignore_list : List PyStr) : List Event × ScanTerm :=
  scanLoop recursive ignore_list root true fs

/-- `run_notebook_and_scripts` (lines 39-64): build the ignore list (a bad
entry raises before any scanning), scan `results` recursively, and
`sys.exit(1)` when the aggregate is false; abnormal terminators of the scan
propagate (there is no handler on this path). -/
def run_notebook_and_scripts (skip_slow_books : Bool)
    (slowBooks : Option (List PyStr)) (isFile : PyStr → Bool)
    (fs : List FSEntry) : List Event × ScanTerm :=
  match loadIgnoreList skip_slow_books slowBooks isFile with
  | .error m => ([], .configError m)
  | .ok ig =>
      match scan_for_nb_and_scripts fs "results".toList true ig with
      | (tr, .normal true) => (tr, .normal true)
      | (tr, .normal false) => (tr, .sysExit 1)
      | (tr, t) => (tr, t)

/-- Lookup in a Python dict embedded as an ordered association list: the
value of the first pair with the given key. -/
def dictGet (d : List (PyStr × PyStr)) (k : PyStr) : Option PyStr :=
  match d with
  | [] => none
  | (k', v) :: rest => if k' = k then some v else dictGet rest k

/-- Python `d[k] = v` on the association-list embedding: replace the value
at an existing key in place, otherwise append the new binding. -/
def dictSet (d : List (PyStr × PyStr)) (k v : PyStr) : List (PyStr × PyStr) :=
  if d.any (fun p => p.1 = k) then
    d.map (fun p => if p.1 = k then (k, v) else p)
  else d ++ [(k, v)]

/-- The environment passed to every spawned subprocess (lines 124-125 and
169-170): `env = dict(os.environ)` then `env["MPLBACKEND"] = "Template"`. -/
def subprocEnv (environ : List (PyStr × PyStr)) : List (PyStr × PyStr) :=
  dictSet environ "MPLBACKEND".toList "Template".toList

/-- The parsed command-line flags of `run-tests.py` (lines 227-250):
`--results`, `-debook in out`, `--flake8`, `--quick`. -/
structure Args where
  results : Bool
  debook : Option (PyStr × PyStr)
  flake8 : Bool
  quick : Bool

/-- One top-level action dispatched by `__main__`; `runNotebooks` records
the `skip_slow_books` argument passed to `run_notebook_and_scripts`. -/
inductive MainAction where
  | runFlake8 : MainAction
  | runNotebooks : Bool → MainAction
  | exportBook : PyStr → PyStr → MainAction
deriving DecidableEq, Repr

/-- The `__main__` dispatch (lines 253-272), in execution order:
`if args.flake8 ... elif args.results ...`, then `if args.debook ...`, then
`if args.quick ...`.  `run_notebook_and_scripts()` is always called with no
arguments, i.e. `skip_slow_books=False`. -/
def mainActions (a : Args) : List MainAction :=
  (if a.flake8 then [.runFlake8]
   else if a.results then [.runNotebooks false]
   else [])
  ++ (match a.debook with
      | some (i, o) => [.exportBook i o]
      | none => [])
  ++ (if a.quick then [.runFlake8, .runNotebooks false] else [])

/-- Accumulator pass of Python `str.splitlines()` restricted to `\n`
boundaries (the only terminator occurring in the texts at hand): no entry
for an empty input, and no trailing empty entry for a newline-terminated
input. -/
def splitlinesAux : List Char → List Char → List PyStr
  | [], acc => if acc = [] then [] else [acc.reverse]
  | c :: rest, acc =>
      if c = '\n' then acc.reverse :: splitlinesAux rest []
      else splitlinesAux rest (c :: acc)

/-- Python `code.splitlines()`. -/
def pySplitlines (l : PyStr) : List PyStr := splitlinesAux l []

/-- Python `"\n".join(lines)`. -/
def joinNl (ls : List PyStr) : PyStr := List.intercalate ['\n'] ls

/-- One cell of a notebook document: executable source lines with an
optional execution count, or markdown text lines. -/
inductive Cell where
  | code : List PyStr → Option Nat → Cell
  | markdown : List PyStr → Cell
deriving DecidableEq

/-- The bracketed execution-count text nbconvert prints in a cell marker:
the count's digits, or a single space for a never-executed cell. -/
def countStr : Option Nat → PyStr
  | none => [' ']
  | some k => (toString k).toList

/-- Model of one cell in the output of the external
`nbconvert.exporters.PythonExporter` (not part of this repository): a code
cell is preceded by a blank line and an `# In[k]:` marker followed by a
blank line; a markdown cell becomes `# `-commented lines unless the
`exclude_markdown` configuration removes it. -/
def cellChunk (excludeMarkdown : Bool) : Cell → PyStr
  | .code src cnt =>
      '\n' :: "# In[".toList ++ countStr cnt ++ "]:".toList ++
        '\n' :: '\n' :: joinNl src ++ ['\n']
  | .markdown src =>
      if excludeMarkdown then []
      else '\n' :: joinNl (src.map (fun l => '#' :: ' ' :: l)) ++ ['\n']

/-- Model of the external `nbconvert` Python exporter's full output for a
notebook: the interpreter line and the `# coding: utf-8` header, then the
cells in order. -/
def pythonExporter (excludeMarkdown : Bool) (cells : List Cell) : PyStr :=
  "#!/usr/bin/env python".toList ++ '\n' :: "# coding: utf-8".toList ++
    '\n' :: cells.flatMap (cellChunk excludeMarkdown)

/-- The line list of the comprehension on line 121 of `test_notebook`:
keep exactly the lines `x` with `x[:9] != "# coding"` from the exporter
output (the exporter is used with its default configuration there). -/
def testBodyLines (cells : List Cell) : List PyStr :=
  (pySplitlines (pythonExporter false cells)).filter
    (fun x => decide (x.take 9 ≠ "# coding".toList))

/-- The script body `test_notebook` executes (lines 117-121):
`"\n".join([x for x in code.splitlines() if x[:9] != "# coding"])`. -/
def converted_test_code (cells : List Cell) : PyStr := joinNl (testBodyLines cells)

/-- Attempt to match the regex `(\s*)# In\[([^]]*)\]:(\s)*` of line 215 at
the head of the text; on success return the remainder after the match.
Each greedy piece is forced: backtracking `\s*` leaves a whitespace
character where `#` is required, and backtracking `[^]]*` leaves a
non-`]` character where `]` is required, so maximal munch is faithful. -/
def matchInMarker (l : PyStr) : Option PyStr :=
  let r1 := l.dropWhile isPySpace
  if "# In[".toList.isPrefixOf r1 then
    let r2 := r1.drop 5
    let inner := r2.takeWhile (fun c => c ≠ ']')
    match r2.drop inner.length with
    | ']' :: ':' :: r4 => some (r4.dropWhile isPySpace)
    | _ => none
  else none

/-- Left-to-right scan of Python `r.sub("\n\n", code)` for that regex: at
each position substitute a match by two newlines, else keep the character.
A successful match consumes at least the five literal characters `# In[`,
so one unit of fuel per input character suffices. -/
def reSubAux : Nat → PyStr → PyStr
  | 0, l => l
  | _ + 1, [] => []
  | fuel + 1, c :: cs =>
      match matchInMarker (c :: cs) with
      | some rest => '\n' :: '\n' :: reSubAux fuel rest
      | none => c :: reSubAux fuel cs

/-- Lines 214-216 of `export_notebook`: collapse every cell marker to two
newlines. -/
def reSubInMarkers (l : PyStr) : PyStr := reSubAux l.length l

/-- The text `export_notebook` (lines 199-222) writes to the output file:
the literal `#!/usr/bin/env python` followed by the marker-collapsed output
of the exporter configured with `exclude_markdown = True`.  (The
`os.chmod` permission bits are outside the text model.) -/
def export_notebook (cells : List Cell) : PyStr :=
  "#!/usr/bin/env python".toList ++ reSubInMarkers (pythonExporter true cells)

/-- Whether an event is consistent with full success: a recorded outcome
must be successful, other events carry no verdict. -/
def eventOk : Event → Bool
  | .outcome _ s => s
  | _ => true

/-- Every outcome recorded in the trace is a success. -/
def allOutcomesTrue (tr : List Event) : Bool := tr.all eventOk

/-- Whether a cell is a code cell. -/
def Cell.isCode : Cell → Bool
  | .code _ _ => true
  | .markdown _ => false

/-- A raw `.slow-books` line is bad when it survives the blank/comment
filter and its canonicalized form is not an existing file. -/
def badLine (isFile : PyStr → Bool) (l : PyStr) : Bool :=
  match canonLine? l with
  | none => false
  | some c => !isFile c

/-- Whether the loader raised. -/
def loadErrored : Except PyStr (List PyStr) → Bool
  | .error _ => true
  | .ok _ => false

example : canonEntry "b".toList = "results/b.ipynb".toList := by decide
example : canonEntry "results/b.ipynb".toList = "results/b.ipynb".toList := by decide
example : canonLine? "  # comment".toList = none := by decide
example : canonLine? "  ".toList = none := by decide


theorem allOutcomesTrue_append (a b : List Event) :
    allOutcomesTrue (a ++ b) = (allOutcomesTrue a && allOutcomesTrue b) :=
  List.all_append

theorem seqScan_normal (tr : List Event) (ok : Bool)
    (k : Bool → List Event × ScanTerm) :
    seqScan (tr, .normal ok) k = (tr ++ (k ok).1, (k ok).2) := rfl

theorem seqScan_assoc (r : List Event × ScanTerm)
    (k k2 : Bool → List Event × ScanTerm) :
    seqScan (seqScan r k) k2 = seqScan r (fun x => seqScan (k x) k2) := by
  obtain ⟨tr, t⟩ := r
  cases t with
  | normal ok =>
      rcases hk : k ok with ⟨tr2, t2⟩
      cases t2 with
      | normal ok2 => simp [seqScan, hk, List.append_assoc]
      | convError p => simp [seqScan, hk]
      | configError p => simp [seqScan, hk]
      | sysExit c => simp [seqScan, hk]
  | convError p => rfl
  | configError p => rfl
  | sysExit c => rfl

/-- The listing loop distributes over concatenation of listings: the tail
runs in the accumulator state produced by the head, and abnormal
termination of the head suppresses the tail. -/
theorem scanLoop_append (recursive : Bool) (ignore : List PyStr)
    (root : PyStr) (ok : Bool) (l1 l2 : List FSEntry) :
    scanLoop recursive ignore root ok (l1 ++ l2) =
      seqScan (scanLoop recursive ignore root ok l1)
        (fun ok2 => scanLoop recursive ignore root ok2 l2) := by
  induction l1 generalizing ok with
  | nil => simp [scanLoop, seqScan]
  | cons e rest ih =>
      simp only [List.cons_append, scanLoop, seqScan_assoc]
      congr 1
      funext x
      exact ih x

theorem py_ne_ipynb : ".py".toList ≠ ".ipynb".toList := by decide

/-- A normal return of the extension dispatch records the accumulator
conjoined with the outcomes it appended. -/
theorem extDispatch_ok (path name : PyStr) (attr : Option FileAttr)
    (ok : Bool) (tr : List Event) (b : Bool)
    (h : extDispatch path name attr ok = (tr, .normal b)) :
    b = (ok && allOutcomesTrue tr) := by
  rcases attr with _ | ⟨(_|_), (_|_), (_|_)⟩ <;>
    by_cases h1 : splitextExt name = ".ipynb".toList <;>
    by_cases h2 : splitextExt name = ".py".toList <;>
    simp only [extDispatch, h1, h2, andTest, test_notebook, test_script,
      if_true, if_false, Prod.mk.injEq, ScanTerm.normal.injEq,
      reduceCtorEq, ite_true, ite_false, and_false, false_and, ite_self,
      py_ne_ipynb, reduceIte] at h <;>
    first
      | exact h.elim
      | (obtain ⟨ha, hb⟩ := h
         subst ha
         subst hb
         simp [allOutcomesTrue, eventOk])

mutual
/-- A normal return of one loop iteration yields the incoming accumulator
conjoined with all outcomes recorded during the iteration. -/
theorem scanEntry_ok (recursive : Bool) (ignore : List PyStr) (root : PyStr)
    (ok : Bool) (e : FSEntry) (tr : List Event) (b : Bool)
    (h : scanEntry recursive ignore root ok e = (tr, .normal b)) :
    b = (ok && allOutcomesTrue tr) := by
  cases e with
  | file name attr =>
      simp only [scanEntry] at h
      split at h
      · simp only [Prod.mk.injEq, ScanTerm.normal.injEq] at h
        obtain ⟨ha, hb⟩ := h
        subst ha; subst hb
        simp [allOutcomesTrue, eventOk]
      · exact extDispatch_ok _ _ _ _ _ _ h
  | dir name children =>
      simp only [scanEntry] at h
      split at h
      · simp only [Prod.mk.injEq, ScanTerm.normal.injEq] at h
        obtain ⟨ha, hb⟩ := h
        subst ha; subst hb
        simp [allOutcomesTrue, eventOk]
      · split at h
        · split at h
          · simp only [Prod.mk.injEq, ScanTerm.normal.injEq] at h
            obtain ⟨ha, hb⟩ := h
            subst ha; subst hb
            simp [allOutcomesTrue]
          · rcases hs : scanLoop recursive [] (pathJoin root name) true children
              with ⟨tr1, t1⟩
            rw [hs] at h
            cases t1 with
            | normal sub =>
                rw [seqScan_normal] at h
                rcases he : extDispatch (pathJoin root name) name none (ok && sub)
                  with ⟨tr2, t2⟩
                rw [he] at h
                cases t2 with
                | normal b2 =>
                    simp only [Prod.mk.injEq, ScanTerm.normal.injEq] at h
                    obtain ⟨ha, hb⟩ := h
                    subst ha; subst hb
                    have h1 : sub = (true && allOutcomesTrue tr1) :=
                      scanLoop_ok recursive [] (pathJoin root name) true children
                        tr1 sub hs
                    have h2 : b2 = ((ok && sub) && allOutcomesTrue tr2) :=
                      extDispatch_ok (pathJoin root name) name none (ok && sub)
                        tr2 b2 he
                    rw [h2, h1, allOutcomesTrue_append]
                    simp [Bool.and_assoc]
                | convError p => simp at h
                | configError p => simp at h
                | sysExit c => simp at h
            | convError p => simp [seqScan] at h
            | configError p => simp [seqScan] at h
            | sysExit c => simp [seqScan] at h
        · exact extDispatch_ok _ _ _ _ _ _ h

/-- A normal return of the listing loop yields the incoming accumulator
conjoined with all outcomes recorded while processing the listing. -/
theorem scanLoop_ok (recursive : Bool) (ignore : List PyStr) (root : PyStr)
    (ok : Bool) (l : List FSEntry) (tr : List Event) (b : Bool)
    (h : scanLoop recursive ignore root ok l = (tr, .normal b)) :
    b = (ok && allOutcomesTrue tr) := by
  cases l with
  | nil =>
      simp only [scanLoop, Prod.mk.injEq, ScanTerm.normal.injEq] at h
      obtain ⟨ha, hb⟩ := h
      subst ha; subst hb
      simp [allOutcomesTrue]
  | cons e rest =>
      simp only [scanLoop] at h
      rcases hs : scanEntry recursive ignore root ok e with ⟨tr1, t1⟩
      rw [hs] at h
      cases t1 with
      | normal ok2 =>
          rw [seqScan_normal] at h
          rcases hr : scanLoop recursive ignore root ok2 rest with ⟨tr2, t2⟩
          rw [hr] at h
          cases t2 with
          | normal b2 =>
              simp only [Prod.mk.injEq, ScanTerm.normal.injEq] at h
              obtain ⟨ha, hb⟩ := h
              subst ha; subst hb
              have h1 : ok2 = (ok && allOutcomesTrue tr1) :=
                scanEntry_ok recursive ignore root ok e tr1 ok2 hs
              have h2 : b2 = (ok2 && allOutcomesTrue tr2) :=
                scanLoop_ok recursive ignore root ok2 rest tr2 b2 hr
              rw [h2, h1, allOutcomesTrue_append, Bool.and_assoc]
          | convError p => simp at h
          | configError p => simp at h
          | sysExit c => simp at h
      | convError p => simp [seqScan] at h
      | configError p => simp [seqScan] at h
      | sysExit c => simp [seqScan] at h
end

/-- Every canonicalized entry starts with the `results/` root prefix. -/
theorem canonEntry_hasRoot (x : PyStr) :
    "results/".toList.isPrefixOf (canonEntry x) = true := by
  unfold canonEntry
  cases hb : "results/".toList.isPrefixOf x <;>
    simp only [hb, Bool.false_eq_true, if_false, if_true] <;> split
  · exact List.isPrefixOf_iff_prefix.mpr (List.prefix_append _ _)
  · exact List.isPrefixOf_iff_prefix.mpr
      ((List.prefix_append _ x).trans (List.prefix_append _ _))
  · exact hb
  · exact List.isPrefixOf_iff_prefix.mpr
      ((List.isPrefixOf_iff_prefix.mp hb).trans (List.prefix_append _ _))

/-- Every canonicalized entry ends with the `.ipynb` extension. -/
theorem canonEntry_suffix (x : PyStr) :
    ".ipynb".toList.isSuffixOf (canonEntry x) = true := by
  unfold canonEntry
  cases hb : "results/".toList.isPrefixOf x <;>
    simp only [hb, Bool.false_eq_true, if_false, if_true] <;> split
  next h => exact h
  next => exact List.isSuffixOf_iff_suffix.mpr (List.suffix_append _ _)
  next h => exact h
  next => exact List.isSuffixOf_iff_suffix.mpr (List.suffix_append _ _)

/-- Claim C7: ignore-list canonicalization (prepend the `results/` root
prefix if absent, append the `.ipynb` extension if absent) is idempotent:
for every entry `x`, `canon(canon(x)) == canon(x)`. -/
theorem c7_canon_idempotent (x : PyStr) :
    canonEntry (canonEntry x) = canonEntry x := by
  conv_lhs => rw [canonEntry]
  simp only [canonEntry_hasRoot x, canonEntry_suffix x, if_true]

/-- An entry whose joined path is in the consulted ignore list is resolved
by the `continue` of line 79: one skip message, no other effect. -/
theorem scanEntry_ignored (recursive : Bool) (ignore : List PyStr)
    (root : PyStr) (ok : Bool) (e : FSEntry)
    (hin : pathJoin root e.name ∈ ignore) :
    scanEntry recursive ignore root ok e =
      ([.skip (pathJoin root e.name)], .normal ok) := by
  cases e with
  | file name attr =>
      simp only [FSEntry.name] at hin ⊢
      simp [scanEntry, hin]
  | dir name children =>
      simp only [FSEntry.name] at hin ⊢
      simp [scanEntry, hin]

/-- Claim C4: the aggregate result of `scan_for_nb_and_scripts` is `true`
iff every non-skipped outcome recorded in that scan has `success == true`;
a single failed outcome anywhere in the subtree forces the result to
`false`. -/
theorem c4_aggregate_iff_all_outcomes (fs : List FSEntry) (root : PyStr)
    (recursive : Bool) (ignore_list : List PyStr) (tr : List Event) (b : Bool)
    (h : scan_for_nb_and_scripts fs root recursive ignore_list =
      (tr, .normal b)) :
    b = true ↔ allOutcomesTrue tr = true := by
  unfold scan_for_nb_and_scripts at h
  have hb := scanLoop_ok recursive ignore_list root true fs tr b h
  rw [hb]
  simp

theorem c4_aggregate_iff_all_outcomes_witness :
    false = true ↔
      allOutcomesTrue
        [Event.spawn "results/a.py".toList,
         Event.outcome "results/a.py".toList true,
         Event.spawn "results/b.py".toList,
         Event.outcome "results/b.py".toList false] = true :=
  c4_aggregate_iff_all_outcomes
    [FSEntry.file "a.py".toList ⟨false, false, true⟩,
     FSEntry.file "b.py".toList ⟨false, false, false⟩]
    "results".toList true [] _ false (by decide)

/-- Claim C1 counterexample: with the nested notebook
`results/sub/x.ipynb` present (post-canonicalization) in the IgnoreSet, the
scan still records a Passed outcome for it — the recursive call of line 86
does not receive the ignore list — and never a Skipped outcome. -/
theorem c1_counterexample :
    "results/sub/x.ipynb".toList ∈ ["results/sub/x.ipynb".toList] ∧
    Event.outcome "results/sub/x.ipynb".toList true ∈
      (scan_for_nb_and_scripts
        [FSEntry.dir "sub".toList
          [FSEntry.file "x.ipynb".toList ⟨false, false, true⟩]]
        "results".toList true ["results/sub/x.ipynb".toList]).1 ∧
    Event.skip "results/sub/x.ipynb".toList ∉
      (scan_for_nb_and_scripts
        [FSEntry.dir "sub".toList
          [FSEntry.file "x.ipynb".toList ⟨false, false, true⟩]]
        "results".toList true ["results/sub/x.ipynb".toList]).1 := by
  decide

/-- Claim C1 (amended): a path present in the IgnoreSet that is a direct
child of the scanned root is not executed: it produces exactly a Skipped
event, never a Passed or Failed outcome, the skip leaves the aggregate
unchanged, and scanning continues with the remaining entries.  The ignore
list is not propagated into recursive calls, so ignored paths at depth two
or more are processed as if not ignored. -/
theorem c1_ignored_direct_children_skipped (recursive : Bool)
    (ignore : List PyStr) (root : PyStr) (pre post : List FSEntry)
    (e : FSEntry) (trPre : List Event) (okPre : Bool)
    (hpre : scanLoop recursive ignore root true pre = (trPre, .normal okPre))
    (hin : pathJoin root e.name ∈ ignore) :
    scan_for_nb_and_scripts (pre ++ e :: post) root recursive ignore =
      (trPre ++ Event.skip (pathJoin root e.name) ::
        (scanLoop recursive ignore root okPre post).1,
       (scanLoop recursive ignore root okPre post).2) := by
  unfold scan_for_nb_and_scripts
  rw [scanLoop_append, hpre, seqScan_normal]
  have he := scanEntry_ignored recursive ignore root okPre e hin
  conv_lhs => rw [scanLoop, he, seqScan_normal]
  simp

/-- Any abnormal terminator of the scan — an uncaught exception or a
`sys.exit` — passes through `run_notebook_and_scripts` unhandled. -/
theorem run_propagates_abnormal (skip : Bool) (slowBooks : Option (List PyStr))
    (isFile : PyStr → Bool) (fs : List FSEntry) (ig : List PyStr)
    (tr : List Event) (t : ScanTerm)
    (hload : loadIgnoreList skip slowBooks isFile = .ok ig)
    (hscan : scan_for_nb_and_scripts fs "results".toList true ig = (tr, t))
    (hnot : ∀ b, t ≠ .normal b) :
    run_notebook_and_scripts skip slowBooks isFile fs = (tr, t) := by
  unfold run_notebook_and_scripts
  rw [hload]
  dsimp only
  rw [hscan]
  cases t with
  | normal b => exact absurd rfl (hnot b)
  | convError p => rfl
  | configError p => rfl
  | sysExit c => rfl

/-- Claim C2 counterexample: the first notebook fails to convert; the scan
aborts with the uncaught conversion error, records no failed outcome for
that target, and the sibling `results/b.py` never runs. -/
theorem c2_counterexample :
    scan_for_nb_and_scripts
      [FSEntry.file "a.ipynb".toList ⟨true, false, true⟩,
       FSEntry.file "b.py".toList ⟨false, false, true⟩]
      "results".toList true [] =
    ([], ScanTerm.convError "results/a.ipynb".toList) := by decide

/-- Claim C2 (amended): a conversion failure raises out of `test_notebook`
uncaught — `scan_for_nb_and_scripts` has no handler — so the error
propagates past Discovery as the scan's terminator: no failed outcome is
recorded for the failing target and the sibling targets after it in the
same scan do not run. -/
theorem c2_conversion_error_aborts_scan (ignore : List PyStr) (root : PyStr)
    (pre post : List FSEntry) (name : PyStr) (attr : FileAttr)
    (trPre : List Event) (okPre : Bool)
    (hpre : scanLoop true ignore root true pre = (trPre, .normal okPre))
    (hnotig : pathJoin root name ∉ ignore)
    (hext : splitextExt name = ".ipynb".toList)
    (hconv : attr.convFail = true) :
    scan_for_nb_and_scripts (pre ++ FSEntry.file name attr :: post)
        root true ignore =
      (trPre, .convError (pathJoin root name)) := by
  unfold scan_for_nb_and_scripts
  rw [scanLoop_append, hpre, seqScan_normal]
  have he : scanEntry true ignore root okPre (FSEntry.file name attr) =
      ([], .convError (pathJoin root name)) := by
    simp [scanEntry, hnotig, extDispatch, hext, andTest, test_notebook, hconv]
  conv_lhs => rw [scanLoop, he]
  simp [seqScan]

theorem c2_conversion_error_aborts_scan_witness :
    scan_for_nb_and_scripts
      ([FSEntry.file "good.py".toList ⟨false, false, true⟩] ++
        FSEntry.file "bad.ipynb".toList ⟨true, false, true⟩ ::
          [FSEntry.file "never.py".toList ⟨false, false, true⟩])
      "results".toList true [] =
    ([Event.spawn "results/good.py".toList,
      Event.outcome "results/good.py".toList true],
     ScanTerm.convError "results/bad.ipynb".toList) :=
  c2_conversion_error_aborts_scan [] "results".toList
    [FSEntry.file "good.py".toList ⟨false, false, true⟩]
    [FSEntry.file "never.py".toList ⟨false, false, true⟩]
    "bad.ipynb".toList ⟨true, false, true⟩ _ true
    (by decide) (by decide) (by decide) (by decide)

/-- Claim C6: a cancellation signal arriving while the executor is blocked
on `communicate()` makes the executor terminate the in-flight child
(`sigterm` event), return no normal per-target outcome, suppress all
remaining targets of the run, and the harness terminates via `sys.exit`
with status 1. -/
theorem c6_interrupt_terminates_child_and_exits (skip : Bool)
    (slowBooks : Option (List PyStr)) (isFile : PyStr → Bool)
    (ig : List PyStr) (pre post : List FSEntry) (name : PyStr)
    (attr : FileAttr) (trPre : List Event) (okPre : Bool)
    (hload : loadIgnoreList skip slowBooks isFile = .ok ig)
    (hpre : scanLoop true ig "results".toList true pre = (trPre, .normal okPre))
    (hnotig : pathJoin "results".toList name ∉ ig)
    (hext : splitextExt name = ".ipynb".toList ∨
      splitextExt name = ".py".toList)
    (hint : attr.interrupt = true) (hconv : attr.convFail = false) :
    scan_for_nb_and_scripts (pre ++ FSEntry.file name attr :: post)
        "results".toList true ig =
      (trPre ++ [Event.spawn (pathJoin "results".toList name),
                 Event.sigterm (pathJoin "results".toList name)],
       .sysExit 1) ∧
    run_notebook_and_scripts skip slowBooks isFile
        (pre ++ FSEntry.file name attr :: post) =
      (trPre ++ [Event.spawn (pathJoin "results".toList name),
                 Event.sigterm (pathJoin "results".toList name)],
       .sysExit 1) := by
  have hgen : ∀ root0 : PyStr, pathJoin root0 name ∉ ig →
      scanEntry true ig root0 okPre (FSEntry.file name attr) =
        ([Event.spawn (pathJoin root0 name),
          Event.sigterm (pathJoin root0 name)], .sysExit 1) := by
    intro root0 hni
    rcases hext with hext | hext
    · simp [scanEntry, hni, extDispatch, hext, andTest, test_notebook,
        hconv, hint]
    · by_cases hx2 : splitextExt name = ".ipynb".toList
      · simp [scanEntry, hni, extDispatch, hx2, andTest, test_notebook,
          hconv, hint]
      · simp [scanEntry, hni, extDispatch, hx2, hext, andTest,
          test_script, hint]
  have he := hgen "results".toList hnotig
  have hscan : scan_for_nb_and_scripts (pre ++ FSEntry.file name attr :: post)
      "results".toList true ig =
      (trPre ++ [Event.spawn (pathJoin "results".toList name),
                 Event.sigterm (pathJoin "results".toList name)],
       .sysExit 1) := by
    unfold scan_for_nb_and_scripts
    rw [scanLoop_append, hpre, seqScan_normal]
    conv_lhs => rw [scanLoop, he]
    simp [seqScan]
  exact ⟨hscan, run_propagates_abnormal skip slowBooks isFile _ ig _ _
    hload hscan (by intro b h; cases h)⟩

theorem c6_interrupt_terminates_child_and_exits_witness :
    scan_for_nb_and_scripts
      ([] ++ FSEntry.file "x.ipynb".toList ⟨false, true, true⟩ ::
        [FSEntry.file "later.py".toList ⟨false, false, true⟩])
      "results".toList true [] =
      ([] ++ [Event.spawn "results/x.ipynb".toList,
              Event.sigterm "results/x.ipynb".toList], ScanTerm.sysExit 1) ∧
    run_notebook_and_scripts false none (fun _ => true)
      ([] ++ FSEntry.file "x.ipynb".toList ⟨false, true, true⟩ ::
        [FSEntry.file "later.py".toList ⟨false, false, true⟩]) =
      ([] ++ [Event.spawn "results/x.ipynb".toList,
              Event.sigterm "results/x.ipynb".toList], ScanTerm.sysExit 1) :=
  c6_interrupt_terminates_child_and_exits false none (fun _ => true) []
    [] [FSEntry.file "later.py".toList ⟨false, false, true⟩]
    "x.ipynb".toList ⟨false, true, true⟩ [] true
    rfl (by decide) (by decide) (Or.inl (by decide))
    (by decide) (by decide)

/-- Claim C5 counterexample: with the recursive flag false, the hidden-name
check of line 84 is never reached — it sits inside the
`recursive and isdir` branch — so a directory entry named `.hidden.py`
falls through to the extension dispatch and is reported and executed as a
script instead of being skipped. -/
theorem c5_counterexample :
    ".hidden.py".toList.take 1 = ['.'] ∧
    scan_for_nb_and_scripts [FSEntry.dir ".hidden.py".toList []]
        "results".toList false [] =
      ([Event.spawn "results/.hidden.py".toList,
        Event.outcome "results/.hidden.py".toList false],
       ScanTerm.normal false) := by decide

/-- Claim C5 (amended): when the recursive flag is true — as in every call
the program makes — a directory entry whose name begins with `.` and whose
path is not in the consulted ignore list is skipped entirely: no events, no
recursion, no outcome, aggregate unchanged; since the flag and the skip
apply at every level of the recursion, no file under such a directory is
ever visited.  With the recursive flag false, however, a hidden directory
whose name carries a `.py` or `.ipynb` extension is dispatched to the
executor. -/
theorem c5_hidden_dirs_skipped_when_recursive (ignore : List PyStr)
    (root : PyStr) (ok : Bool) (name : PyStr) (children : List FSEntry)
    (hdot : name.take 1 = ['.'])
    (hnotig : pathJoin root name ∉ ignore) :
    scanEntry true ignore root ok (FSEntry.dir name children) =
      ([], .normal ok) := by
  simp [scanEntry, hnotig, hdot]

theorem c5_hidden_dirs_skipped_when_recursive_witness :
    scanEntry true [] "results".toList true
      (FSEntry.dir ".git".toList
        [FSEntry.file "c.py".toList ⟨false, false, false⟩]) =
      ([], ScanTerm.normal true) :=
  c5_hidden_dirs_skipped_when_recursive [] "results".toList true
    ".git".toList [FSEntry.file "c.py".toList ⟨false, false, false⟩]
    (by decide) (by decide)

/-- Claim C10: each CLI action that runs the scan (`--results` and
`--quick`) invokes `run_notebook_and_scripts` with `skip_slow_books` left
at its `False` default, so the ignore file is never consulted, the
IgnoreSet is empty, and the run does not depend on the `.slow-books`
content at all. -/
theorem c10_cli_never_skips_slow_books (a : Args) (s : Bool)
    (slowBooks : Option (List PyStr)) (isFile : PyStr → Bool)
    (fs : List FSEntry)
    (hmem : MainAction.runNotebooks s ∈ mainActions a) :
    s = false ∧
    loadIgnoreList s slowBooks isFile = .ok [] ∧
    run_notebook_and_scripts s slowBooks isFile fs =
      run_notebook_and_scripts false none isFile fs := by
  have hs : s = false := by
    rcases a with ⟨res, deb, fl, qk⟩
    cases res <;> cases fl <;> cases qk <;> rcases deb with _ | ⟨i, o⟩ <;>
      simp [mainActions] at hmem <;> tauto
  subst hs
  exact ⟨rfl, rfl, rfl⟩

theorem c10_cli_never_skips_slow_books_witness :
    false = false ∧
    loadIgnoreList false (some ["nonexistent".toList]) (fun _ => false) =
      .ok [] ∧
    run_notebook_and_scripts false (some ["nonexistent".toList])
        (fun _ => false) [FSEntry.file "a.py".toList ⟨false, false, true⟩] =
      run_notebook_and_scripts false none (fun _ => false)
        [FSEntry.file "a.py".toList ⟨false, false, true⟩] :=
  c10_cli_never_skips_slow_books ⟨true, none, false, false⟩ false
    (some ["nonexistent".toList]) (fun _ => false)
    [FSEntry.file "a.py".toList ⟨false, false, true⟩] (by decide)

/-- Replacing the value at one key in place leaves lookups at every other
key unchanged. -/
theorem dictGet_map_other (d : List (PyStr × PyStr)) (k v k' : PyStr)
    (hne : k' ≠ k) :
    dictGet (d.map (fun p => if p.1 = k then (k, v) else p)) k' =
      dictGet d k' := by
  induction d with
  | nil => rfl
  | cons p rest ih =>
      obtain ⟨a, b⟩ := p
      simp only [List.map_cons]
      by_cases hp : a = k
      · rw [show (if (a, b).1 = k then (k, v) else (a, b)) = (k, v) from
          if_pos hp]
        show (if k = k' then some v else
          dictGet (rest.map (fun p => if p.1 = k then (k, v) else p)) k') =
            dictGet ((a, b) :: rest) k'
        rw [if_neg (Ne.symm hne), ih]
        show dictGet rest k' = if a = k' then some b else dictGet rest k'
        rw [if_neg (hp ▸ (Ne.symm hne) : ¬a = k')]
      · rw [show (if (a, b).1 = k then (k, v) else (a, b)) = (a, b) from
          if_neg hp]
        show (if a = k' then some b else
          dictGet (rest.map (fun p => if p.1 = k then (k, v) else p)) k') =
            if a = k' then some b else dictGet rest k'
        rw [ih]

/-- Appending a fresh binding at the end leaves lookups at every other key
unchanged. -/
theorem dictGet_append_other (d : List (PyStr × PyStr)) (k v k' : PyStr)
    (hne : k' ≠ k) :
    dictGet (d ++ [(k, v)]) k' = dictGet d k' := by
  induction d with
  | nil => simp [dictGet, Ne.symm hne]
  | cons p rest ih =>
      obtain ⟨a, b⟩ := p
      by_cases hp : a = k'
      · subst hp
        simp [dictGet]
      · simp [dictGet, hp, ih]

/-- After an in-place replacement at a key the dict holds, lookup at that
key yields the new value. -/
theorem dictGet_map_same (d : List (PyStr × PyStr)) (k v : PyStr)
    (hany : d.any (fun p => p.1 = k) = true) :
    dictGet (d.map (fun p => if p.1 = k then (k, v) else p)) k = some v := by
  induction d with
  | nil => simp at hany
  | cons p rest ih =>
      obtain ⟨a, b⟩ := p
      simp only [List.map_cons]
      by_cases hp : a = k
      · rw [show (if (a, b).1 = k then (k, v) else (a, b)) = (k, v) from
          if_pos hp]
        show (if k = k then some v else
          dictGet (rest.map (fun p => if p.1 = k then (k, v) else p)) k) =
            some v
        rw [if_pos rfl]
      · rw [show (if (a, b).1 = k then (k, v) else (a, b)) = (a, b) from
          if_neg hp]
        show (if a = k then some b else
          dictGet (rest.map (fun p => if p.1 = k then (k, v) else p)) k) =
            some v
        rw [if_neg hp]
        apply ih
        simpa [hp] using hany

/-- Appending a binding for an absent key makes lookup at that key yield
the new value. -/
theorem dictGet_append_same (d : List (PyStr × PyStr)) (k v : PyStr)
    (hany : d.any (fun p => p.1 = k) = false) :
    dictGet (d ++ [(k, v)]) k = some v := by
  induction d with
  | nil => simp [dictGet]
  | cons p rest ih =>
      obtain ⟨a, b⟩ := p
      simp only [List.any_cons, Bool.or_eq_false_iff, decide_eq_false_iff_not]
        at hany
      simp [dictGet, hany.1, ih hany.2]

/-- Claim C9: for every target execution the environment map handed to the
spawned subprocess agrees with the harness's own environment on every
variable other than `MPLBACKEND`, and maps `MPLBACKEND` to the
non-interactive value `Template`; no other variable is added, removed or
changed. -/
theorem c9_subprocess_env_frame (environ : List (PyStr × PyStr))
    (k : PyStr) (hk : k ≠ "MPLBACKEND".toList) :
    dictGet (subprocEnv environ) "MPLBACKEND".toList =
      some "Template".toList ∧
    dictGet (subprocEnv environ) k = dictGet environ k := by
  unfold subprocEnv dictSet
  constructor
  · split
    next hany => exact dictGet_map_same environ _ _ hany
    next hany =>
      exact dictGet_append_same environ _ _ (Bool.eq_false_iff.mpr hany)
  · split
    next hany => exact dictGet_map_other environ _ _ k hk
    next hany => exact dictGet_append_other environ _ _ k hk

theorem c9_subprocess_env_frame_witness :
    dictGet (subprocEnv [("HOME".toList, "/root".toList)])
        "MPLBACKEND".toList = some "Template".toList ∧
    dictGet (subprocEnv [("HOME".toList, "/root".toList)]) "HOME".toList =
      dictGet [("HOME".toList, "/root".toList)] "HOME".toList :=
  c9_subprocess_env_frame [("HOME".toList, "/root".toList)] "HOME".toList
    (by decide)

/-- The loader loop raises exactly when some line of the file is bad. -/
theorem loadIgnoreAux_errored (isFile : PyStr → Bool) (lines : List PyStr) :
    loadErrored (loadIgnoreAux isFile lines) =
      lines.any (badLine isFile) := by
  induction lines with
  | nil => rfl
  | cons l rest ih =>
      simp only [List.any_cons]
      cases hc : canonLine? l with
      | none =>
          simp only [loadIgnoreAux, hc, badLine]
          rw [ih]
          simp
      | some c =>
          cases hf : isFile c with
          | false =>
              simp only [loadIgnoreAux, hc, hf, badLine]
              simp [loadErrored]
          | true =>
              simp only [loadIgnoreAux, hc, hf, badLine]
              cases hrest : loadIgnoreAux isFile rest with
              | error e =>
                  rw [hrest] at ih
                  simp only [Except.map, loadErrored] at ih ⊢
                  rw [← ih]
                  simp [loadErrored]
              | ok t =>
                  rw [hrest] at ih
                  simp only [Except.map, loadErrored] at ih ⊢
                  rw [← ih]
                  simp [loadErrored]

/-- Claim C8: the ignore-list loader returns an empty set without error
when the exclusion file does not exist; with the file present it raises a
configuration error exactly when some canonicalized, non-blank,
non-comment entry does not correspond to an existing file; and such an
error surfaces from `run_notebook_and_scripts` before any target runs —
the run's trace is empty. -/
theorem c8_ignore_loader_contract (slowLines slowLines2 : List PyStr)
    (isFile : PyStr → Bool) (fs : List FSEntry) (m : PyStr)
    (hbad : loadIgnoreList true (some slowLines) isFile = .error m) :
    loadIgnoreList true none isFile = .ok [] ∧
    loadErrored (loadIgnoreList true (some slowLines2) isFile) =
      slowLines2.any (badLine isFile) ∧
    run_notebook_and_scripts true (some slowLines) isFile fs =
      ([], .configError m) := by
  refine ⟨rfl, ?_, ?_⟩
  · show loadErrored (loadIgnoreAux isFile slowLines2) = _
    exact loadIgnoreAux_errored isFile slowLines2
  · unfold run_notebook_and_scripts
    rw [hbad]

theorem c8_ignore_loader_contract_witness :
    loadIgnoreList true none (fun _ => false) = .ok [] ∧
    loadErrored (loadIgnoreList true (some ["b".toList, "  ".toList])
        (fun _ => false)) =
      ["b".toList, "  ".toList].any (badLine (fun _ => false)) ∧
    run_notebook_and_scripts true (some ["b".toList, "  ".toList])
        (fun _ => false) [FSEntry.file "a.py".toList ⟨false, false, true⟩] =
      ([], .configError "results/b.ipynb".toList) :=
  c8_ignore_loader_contract ["b".toList, "  ".toList]
    ["b".toList, "  ".toList] (fun _ => false)
    [FSEntry.file "a.py".toList ⟨false, false, true⟩]
    "results/b.ipynb".toList rfl

theorem c1_ignored_direct_children_skipped_witness :
    scan_for_nb_and_scripts
      ([] ++ FSEntry.file "a.ipynb".toList ⟨false, false, true⟩ ::
        [FSEntry.file "b.py".toList ⟨false, false, true⟩])
      "results".toList true ["results/a.ipynb".toList] =
    ([] ++ Event.skip "results/a.ipynb".toList ::
      (scanLoop true ["results/a.ipynb".toList] "results".toList true
        [FSEntry.file "b.py".toList ⟨false, false, true⟩]).1,
     (scanLoop true ["results/a.ipynb".toList] "results".toList true
        [FSEntry.file "b.py".toList ⟨false, false, true⟩]).2) :=
  c1_ignored_direct_children_skipped true ["results/a.ipynb".toList]
    "results".toList [] [FSEntry.file "b.py".toList ⟨false, false, true⟩]
    (FSEntry.file "a.ipynb".toList ⟨false, false, true⟩) [] true
    (by decide) (by decide)

/-- Splitting off one newline-terminated line: the characters before the
first newline become one entry (after the pending accumulator), the rest is
split independently. -/
theorem splitlinesAux_line (m y : PyStr) (acc : List Char)
    (hm : '\n' ∉ m) :
    splitlinesAux (m ++ '\n' :: y) acc =
      (acc.reverse ++ m) :: splitlinesAux y [] := by
  induction m generalizing acc with
  | nil => simp [splitlinesAux]
  | cons c cs ih =>
      have hc : ¬(c = '\n') := fun h => hm (h ▸ List.mem_cons_self c cs)
      have hcs : '\n' ∉ cs := fun h => hm (List.mem_cons_of_mem c h)
      simp only [List.cons_append, splitlinesAux, hc, if_false,
        List.append_eq]
      rw [ih (c :: acc) hcs]
      simp

/-- A newline-free segment framed by newlines anywhere in the text appears
verbatim among its split lines. -/
theorem mem_splitlinesAux_marker (m : PyStr) (hm : '\n' ∉ m) :
    ∀ (x : PyStr) (acc : List Char) (y : PyStr),
      m ∈ splitlinesAux (x ++ '\n' :: m ++ '\n' :: y) acc := by
  intro x
  induction x with
  | nil =>
      intro acc y
      simp only [List.nil_append, List.cons_append, splitlinesAux,
        eq_self_iff_true, if_true, List.append_eq]
      rw [splitlinesAux_line m y [] hm]
      simp
  | cons c cs ih =>
      intro acc y
      by_cases hc : c = '\n'
      · subst hc
        simp only [List.cons_append, splitlinesAux, eq_self_iff_true,
          if_true, List.append_eq]
        exact List.mem_cons_of_mem _ (ih [] y)
      · simp only [List.cons_append, splitlinesAux, hc, if_false,
          List.append_eq]
        exact ih (c :: acc) y

/-- No line beginning with the five characters `# In[` is removed by the
nine-character `# coding` slice comparison of line 121. -/
theorem marker_take9_ne (rest : PyStr) :
    ("# In[".toList ++ rest).take 9 ≠ "# coding".toList := by
  intro h
  have hp : "# In[".toList <+: "# coding".toList := by
    rw [← h, List.take_append_eq_append_take]
    have h59 : "# In[".toList.take 9 = "# In[".toList := by decide
    rw [h59]
    exact List.prefix_append _ _
  exact absurd hp (by decide)

/-- With `exclude_markdown` set, markdown cells contribute nothing to the
exporter output. -/
theorem flatMap_cellChunk_exclude (cells : List Cell) :
    cells.flatMap (cellChunk true) =
      (cells.filter Cell.isCode).flatMap (cellChunk true) := by
  induction cells with
  | nil => rfl
  | cons c rest ih =>
      cases c with
      | code src cnt =>
          simp only [List.flatMap_cons, List.filter_cons, Cell.isCode,
            if_true, ih]
      | markdown src =>
          simp only [List.flatMap_cons, List.filter_cons, Cell.isCode,
            cellChunk, if_true, Bool.false_eq_true, if_false,
            List.nil_append, ih]

/-- The export-side exporter output coincides with the output on the
code-cells-only notebook: markdown is fully excluded. -/
theorem exporter_markdown_excluded (cells : List Cell) :
    pythonExporter true cells =
      pythonExporter true (cells.filter Cell.isCode) := by
  unfold pythonExporter
  rw [flatMap_cellChunk_exclude]

/-- The `# coding: utf-8` header emitted by the exporter survives the
line filter of `test_notebook` for every notebook: the filter only drops
lines whose nine-character slice equals the eight-character `# coding`. -/
theorem coding_mem_testBodyLines (cells : List Cell) :
    "# coding: utf-8".toList ∈ testBodyLines cells := by
  unfold testBodyLines
  apply List.mem_filter.mpr
  refine ⟨?_, by decide⟩
  unfold pythonExporter pySplitlines
  exact mem_splitlinesAux_marker "# coding: utf-8".toList (by decide)
    "#!/usr/bin/env python".toList [] _

/-- Every code cell's `# In[..]:` execution-count marker survives into the
body `test_notebook` executes: nothing collapses the markers there. -/
theorem marker_mem_testBodyLines (cells : List Cell) (src : List PyStr)
    (k : Option Nat) (hmem : Cell.code src k ∈ cells)
    (hnl : '\n' ∉ countStr k) :
    ("# In[".toList ++ countStr k ++ "]:".toList) ∈ testBodyLines cells := by
  obtain ⟨s, t, rfl⟩ := List.append_of_mem hmem
  have hm : '\n' ∉ ("# In[".toList ++ countStr k ++ "]:".toList) := by
    simp only [List.mem_append]
    rintro ((h | h) | h)
    · exact absurd h (by decide)
    · exact hnl h
    · exact absurd h (by decide)
  unfold testBodyLines
  apply List.mem_filter.mpr
  constructor
  · unfold pySplitlines
    have hshape : pythonExporter false (s ++ Cell.code src k :: t) =
        ("#!/usr/bin/env python".toList ++ '\n' ::
            "# coding: utf-8".toList ++
          '\n' :: s.flatMap (cellChunk false)) ++
        '\n' :: ("# In[".toList ++ countStr k ++ "]:".toList) ++
        '\n' :: ('\n' :: (joinNl src ++ '\n' :: t.flatMap (cellChunk false)))
        := by
      unfold pythonExporter cellChunk
      simp [List.flatMap_append, List.append_assoc]
    rw [hshape]
    exact mem_splitlinesAux_marker _ hm _ [] _
  · apply decide_eq_true
    rw [List.append_assoc]
    exact marker_take9_ne (countStr k ++ "]:".toList)

/-- Claim C3 counterexample: for the notebook with one markdown cell
(`Hello`) and one code cell, the body `test_notebook` executes still
contains the markdown comment line, the `# In[1]:` execution-count marker
and the `# coding: utf-8` header — the nine-character slice of line 121
never equals the eight-character literal `# coding` on the real header —
and the file `export_notebook` persists also retains the coding header. -/
theorem c3_counterexample :
    "# Hello".toList ∈ testBodyLines
      [Cell.markdown ["Hello".toList], Cell.code ["print(1)".toList] (some 1)] ∧
    "# In[1]:".toList ∈ testBodyLines
      [Cell.markdown ["Hello".toList], Cell.code ["print(1)".toList] (some 1)] ∧
    "# coding: utf-8".toList ∈ testBodyLines
      [Cell.markdown ["Hello".toList], Cell.code ["print(1)".toList] (some 1)] ∧
    "# coding: utf-8".toList ∈ pySplitlines (export_notebook
      [Cell.markdown ["Hello".toList], Cell.code ["print(1)".toList] (some 1)])
    := by decide

/-- Claim C3 (amended): the body used for test execution is the exporter
output with only the lines whose nine-character slice equals `# coding`
removed: the real `# coding: utf-8` header is retained for every notebook,
every code cell's `# In[..]:` execution-count marker is retained (not
collapsed), and markdown cells are retained as comments.  Only the export
entry point excludes markdown cells — its exporter output equals that of
the notebook restricted to its code cells — and only there are the markers
collapsed to blank lines, while the coding header again survives: at the
one-markdown-cell-one-code-cell notebook, the persisted export file
contains no `# In[1]:` line, and its lines are exactly the (doubled)
shebang, the coding header, the blank line the marker collapsed into, and
the code line. -/
theorem c3_converter_pipeline (cells : List Cell) (src : List PyStr)
    (k : Option Nat) (hmem : Cell.code src k ∈ cells)
    (hnl : '\n' ∉ countStr k) :
    "# coding: utf-8".toList ∈ testBodyLines cells ∧
    ("# In[".toList ++ countStr k ++ "]:".toList) ∈ testBodyLines cells ∧
    pythonExporter true cells =
      pythonExporter true (cells.filter Cell.isCode) ∧
    "# In[1]:".toList ∉ pySplitlines (export_notebook
      [Cell.markdown ["Hello".toList],
       Cell.code ["print(1)".toList] (some 1)]) ∧
    pySplitlines (export_notebook
        [Cell.markdown ["Hello".toList],
         Cell.code ["print(1)".toList] (some 1)]) =
      ["#!/usr/bin/env python#!/usr/bin/env python".toList,
       "# coding: utf-8".toList, [], "print(1)".toList] :=
  ⟨coding_mem_testBodyLines cells,
   marker_mem_testBodyLines cells src k hmem hnl,
   exporter_markdown_excluded cells,
   by decide, by decide⟩

theorem c3_converter_pipeline_witness :
    "# coding: utf-8".toList ∈ testBodyLines
      [Cell.markdown ["Hi".toList], Cell.code ["x = 1".toList] (some 2)] ∧
    ("# In[".toList ++ countStr (some 2) ++ "]:".toList) ∈ testBodyLines
      [Cell.markdown ["Hi".toList], Cell.code ["x = 1".toList] (some 2)] ∧
    pythonExporter true
        [Cell.markdown ["Hi".toList], Cell.code ["x = 1".toList] (some 2)] =
      pythonExporter true
        ([Cell.markdown ["Hi".toList],
          Cell.code ["x = 1".toList] (some 2)].filter Cell.isCode) ∧
    "# In[1]:".toList ∉ pySplitlines (export_notebook
      [Cell.markdown ["Hello".toList],
       Cell.code ["print(1)".toList] (some 1)]) ∧
    pySplitlines (export_notebook
        [Cell.markdown ["Hello".toList],
         Cell.code ["print(1)".toList] (some 1)]) =
      ["#!/usr/bin/env python#!/usr/bin/env python".toList,
       "# coding: utf-8".toList, [], "print(1)".toList] :=
  c3_converter_pipeline
    [Cell.markdown ["Hi".toList], Cell.code ["x = 1".toList] (some 2)]
    ["x = 1".toList] (some 2) (by decide) (by decide)
